import Mathlib

/-!
Shallow embedding of `src/app.py` (a Dash dashboard fetching GitHub commit
data) together with proofs about its fetch/aggregate pipeline.

Modelling conventions:
* JSON values are the inductive `Json` (objects as association lists).
* Timestamps are modelled at day granularity as `Nat` (days since an epoch
  whose day 0 is a Thursday, so days `d` with `d % 7 = 3` are Sundays —
  matching 1970-01-01).  `pandas.to_datetime(..., errors="coerce")` is an
  external-library parser and is passed in as a parameter
  `parse : Json → Option Nat` (`none` models `NaT`).
* The HTTP transport is replaced by the `HttpResponse` the network would
  deliver: `status` is the final status code and `body` is the decoded JSON
  array (`none` models a body that is not valid JSON, which makes
  `response.json()` raise).
* Python truthiness, `dict.get`, `or`, `str.strip` and `if not x` are
  modelled by `pyTruthy`, `pyGetD`/`pyGet`, `pyOr`, `pyStrip`, `pyNot`.
* `pandas` column operations are modelled over Lean lists:
  `.resample("W").size()` by `weeklySeries` (weekly bins labelled by their
  right edge, a Sunday, covering the whole min-max span, as pandas does),
  `.value_counts()` by `value_counts` (distinct keys in first-occurrence
  order, counted, then sorted descending by count),
  `.nunique()` by `pdNunique`, `.fillna("unknown")` by `fillna_unknown`,
  `.dropna()` + `.sort_values` inside `fetch_commits`.
-/

/-! ## JSON values (mutual, so that equality is decidable) -/

mutual

inductive Json where
  | null
  | str (s : String)
  | num (n : Int)
  | boolean (b : Bool)
  | arr (items : JsonList)
  | obj (fields : JsonFields)
  deriving DecidableEq, Repr

inductive JsonList where
  | nil
  | cons (hd : Json) (tl : JsonList)
  deriving DecidableEq, Repr

inductive JsonFields where
  | nil
  | cons (key : String) (val : Json) (tl : JsonFields)
  deriving DecidableEq, Repr

end

/-- Lookup of a key in a JSON object's field list (first match wins). -/
def JsonFields.lookup : JsonFields → String → Option Json
  | .nil, _ => none
  | .cons k v tl, key => if k = key then some v else tl.lookup key

/-- Python truthiness of a JSON value (`None`, `""`, `0`, `False`, `[]`, `{}`
are falsy). -/
def pyTruthy : Json → Bool
  | .null => false
  | .str s => !(s == "")
  | .num n => !(n == 0)
  | .boolean b => b
  | .arr items => !(items == .nil)
  | .obj fields => !(fields == .nil)

/-- Python `a or b`. -/
def pyOr (a b : Json) : Json := if pyTruthy a then a else b

/-- Python `d.get(key, dflt)`: raises (models `AttributeError`/`TypeError`)
unless the receiver is a dict; returns `dflt` when the key is absent. -/
def pyGetD (v : Json) (key : String) (dflt : Json) : Except String Json :=
  match v with
  | .obj fields => .ok ((fields.lookup key).getD dflt)
  | _ => .error "AttributeError: object has no attribute get"

/-- Python `d.get(key)` (default `None`). -/
def pyGet (v : Json) (key : String) : Except String Json :=
  pyGetD v key .null

/-! ## The Fetcher (`fetch_commits`, src/app.py lines 13–56) -/

/-- One element of the `records` list built in the extraction loop of
`fetch_commits` (lines 31–45), before date coercion. -/
structure RawRecord where
  sha : Json
  commit_date : Json
  author_name : Json
  author_login : Json
  message : Json
  deriving DecidableEq, Repr

/-- One row of the final commit DataFrame, after
`pd.to_datetime(..., errors="coerce")` and `dropna` (lines 53–54):
`commit_date` is now a parsed day number. -/
structure Record where
  sha : Json
  commit_date : Nat
  author_name : Json
  author_login : Json
  message : Json
  deriving DecidableEq, Repr

/-- The body of the `for item in data` loop of `fetch_commits`
(lines 32–45): nested `dict.get` extraction with `or {}` guards. -/
def rowOfItem (item : Json) : Except String RawRecord := do
  let c0 ← pyGetD item "commit" (Json.obj .nil)
  let commit := pyOr c0 (Json.obj .nil)
  let a0 ← pyGetD commit "author" (Json.obj .nil)
  let author_info := pyOr a0 (Json.obj .nil)
  let g0 ← pyGet item "author"
  let gh_author := pyOr g0 (Json.obj .nil)
  let sha ← pyGet item "sha"
  let date ← pyGet author_info "date"
  let name ← pyGet author_info "name"
  let login ← pyGet gh_author "login"
  let msg ← pyGet commit "message"
  return ⟨sha, date, name, login, msg⟩

/-- The HTTP response the transport delivers for the single
`requests.get` call: the final status code, and the decoded JSON array
(`none` when the body is not valid JSON, so `response.json()` raises). -/
structure HttpResponse where
  status : Nat
  body : Option (List Json)

/-- What `fetch_commits` can raise: `requests.HTTPError` out of
`raise_for_status` (carrying `e.response.status_code`, or `none` when the
exception has no response attached), or any other exception with its text. -/
inductive FetchErr where
  | http (status : Option Nat)
  | unexpected (msg : String)
  deriving DecidableEq, Repr

/-- Coercion of one raw record by
`pd.to_datetime(df["commit_date"], errors="coerce")` followed by
`dropna(subset=["commit_date"])`: `none` when the timestamp fails to parse
(the row is dropped). -/
def coerceRecord (parse : Json → Option Nat) (r : RawRecord) : Option Record :=
  (parse r.commit_date).map fun d =>
    ⟨r.sha, d, r.author_name, r.author_login, r.message⟩

/-- Stable insertion into a sorted list: `before x y = true` means `x` must
come before `y`; on `false` (in particular on ties) `x` falls through. -/
def insertSorted (before : α → α → Bool) (x : α) : List α → List α
  | [] => [x]
  | y :: ys => if before x y then x :: y :: ys else y :: insertSorted before x ys

/-- Insertion sort (stable) with the given strict `before` relation. -/
def sortBy (before : α → α → Bool) (l : List α) : List α :=
  l.foldr (insertSorted before) []

/-- Ordering used by `df.sort_values("commit_date")`. -/
def dateBefore (r s : Record) : Bool := r.commit_date < s.commit_date

/-- The Fetcher, `fetch_commits` (lines 13–56): `raise_for_status` raises
`HTTPError` exactly for status codes 400–599; then the JSON body is decoded
(`none` raises), each element is run through the extraction loop, an empty
record list is returned as-is (`if df.empty: return df`), and otherwise
timestamps are coerced, unparseable rows dropped, and rows sorted by date. -/
def fetch_commits (parse : Json → Option Nat) (resp : HttpResponse) :
    Except FetchErr (List Record) :=
  if 400 ≤ resp.status ∧ resp.status < 600 then
    .error (.http (some resp.status))
  else
    match resp.body with
    | none => .error (.unexpected "Expecting value: invalid JSON body")
    | some data =>
      match data.mapM rowOfItem with
      | .error e => .error (.unexpected e)
      | .ok records =>
        if records.isEmpty then
          .ok []
        else
          .ok (sortBy dateBefore (records.filterMap (coerceRecord parse)))

/-- The request URL built at line 24 of `fetch_commits`. -/
def fetchUrl (owner repo : String) : String :=
  "https://api.github.com/repos/" ++ owner ++ "/" ++ repo ++ "/commits"

/-! ## Weekly bucketing (`.resample("W").size()`, lines 300–306) -/

/-- Right edge (label) of the weekly bin containing day `d`: the smallest
day `≥ d` that is a Sunday (`% 7 = 3` in our epoch). This is pandas'
`W`(`-SUN`) resampling label with `closed="right"` at day granularity. -/
def weekEnd (d : Nat) : Nat := d + (10 - d % 7) % 7

/-- Model of `df.set_index("commit_date").resample("W").size()` on the list
of day numbers of the table: weekly bins labelled by their Sunday right
edge, covering the full span from the first to the last commit week
(pandas materializes the intermediate empty bins), each with the number of
rows falling in the bin. -/
def weeklySeries (dates : List Nat) : List (Nat × Nat) :=
  match dates with
  | [] => []
  | d :: ds =>
    let mn := ds.foldl Nat.min d
    let mx := ds.foldl Nat.max d
    let w0 := weekEnd mn
    let nWeeks := (weekEnd mx - w0) / 7 + 1
    (List.range nWeeks).map fun i =>
      (w0 + 7 * i, dates.countP (fun x => weekEnd x == w0 + 7 * i))

/-! ## Contributor ranking (`value_counts().head(10)`, lines 318–325) -/

/-- Model of `.fillna("unknown")` on one cell of the `author_login`
column. -/
def fillna_unknown (v : Json) : Json :=
  match v with
  | .null => .str "unknown"
  | other => other

/-- Distinct values of a column in first-occurrence order, relative to a
list of values already seen. -/
def firstOccsAux (seen : List Json) : List Json → List Json
  | [] => []
  | x :: xs =>
    if x ∈ seen then firstOccsAux seen xs
    else x :: firstOccsAux (x :: seen) xs

/-- Distinct values of a column in first-occurrence order (the key order
`value_counts` counts over). -/
def firstOccs (l : List Json) : List Json := firstOccsAux [] l

/-- Ordering used to sort `value_counts` output: descending by count
(ties keep first-occurrence order via stable insertion). -/
def countBefore (p q : Json × Nat) : Bool := q.2 < p.2

/-- Model of `Series.value_counts()`: pairs each distinct value (in
first-occurrence order) with its number of occurrences, sorted descending
by count. -/
def value_counts (xs : List Json) : List (Json × Nat) :=
  sortBy countBefore ((firstOccs xs).map fun k => (k, xs.countP (fun v => v == k)))

/-- The `contributors` table of `update_dashboard` (lines 318–325):
`df["author_login"].fillna("unknown").value_counts().head(10)`. -/
def contributors (logins : List Json) : List (Json × Nat) :=
  (value_counts (logins.map fillna_unknown)).take 10

/-- Model of `Series.nunique()` (no NaN left after `fillna`): the number of
distinct values. -/
def pdNunique (xs : List Json) : Nat := (firstOccs xs).length

/-! ## The callback `update_dashboard` (lines 248–362) -/

/-- Python `not x` on a Dash text-input value (`None` or a string). -/
def pyNot : Option String → Bool
  | none => true
  | some s => s == ""

/-- Python `str.strip()`: remove leading and trailing whitespace. -/
def pyStrip (s : String) : String :=
  String.mk (((s.data.dropWhile Char.isWhitespace).reverse.dropWhile
    Char.isWhitespace).reverse)

/-- The arguments `update_dashboard` passes to `fetch_commits`
(lines 252–264): `none` when the `if not owner or not repo` validation
branch returns early, otherwise the stripped owner and repo. -/
def fetchArgs (owner repo : Option String) : Option (String × String) :=
  if pyNot owner || pyNot repo then none
  else some (pyStrip (owner.getD ""), pyStrip (repo.getD ""))

/-- A plotly figure, abstracted to its identity-relevant data: the
`px.scatter(title="No data")` placeholder, the weekly commit line chart, or
the contributor bar chart. -/
inductive Fig where
  | scatter (title : String)
  | line (weekly : List (Nat × Nat)) (owner repo : String)
  | bar (contrib : List (Json × Nat))
  deriving DecidableEq, Repr

/-- The placeholder string `"—"` of line 249. -/
def placeholder : String := "—"

/-- The 7-tuple returned by `update_dashboard`, in order. -/
structure Outputs where
  figCommits : Fig
  figContrib : Fig
  totalCommits : String
  uniqueAuthors : String
  dateRange : String
  topShare : String
  errorMsg : String
  deriving DecidableEq, Repr

/-- The 7-tuple each early-return branch of `update_dashboard` builds:
two `px.scatter(title="No data")` figures, four `"—"` placeholders, and a
message. -/
def placeholderOutputs (msg : String) : Outputs :=
  ⟨.scatter "No data", .scatter "No data",
   placeholder, placeholder, placeholder, placeholder, msg⟩

/-- The status text interpolated at line 266:
`e.response.status_code if e.response is not None else "unknown"`. -/
def apiStatusStr : Option Nat → String
  | some s => toString s
  | none => "unknown"

/-- Rendering of a JSON value as Python string interpolation would show the
top author key (always a string for this column after `fillna`). -/
def jsonDisplay : Json → String
  | .str s => s
  | .null => "None"
  | .num n => toString n
  | .boolean b => if b then "True" else "False"
  | .arr _ => "[...]"
  | .obj _ => "\x7b...\x7d"

/-- One-decimal rendering of `top_count / total * 100` (line 349's
`f"{top_share:.1f}"`), in exact integer arithmetic rounded to the nearest
tenth. -/
def fmtShare (top total : Nat) : String :=
  let tenths := (1000 * top + total / 2) / total
  toString (tenths / 10) ++ "." ++ toString (tenths % 10)

/-- The callback `update_dashboard` (lines 248–362).  The `HttpResponse`
parameter is what the transport delivers for the single `requests.get`
performed by `fetch_commits`; `parse` is the external timestamp parser. -/
def update_dashboard (parse : Json → Option Nat) (resp : HttpResponse)
    (owner repo : Option String) : Outputs :=
  if pyNot owner || pyNot repo then
    placeholderOutputs "Please enter both owner and repo."
  else
    match fetch_commits parse resp with
    | .error (.http st) =>
      placeholderOutputs ("GitHub API error (status " ++ apiStatusStr st ++
        "). Check that the repository exists and is public.")
    | .error (.unexpected e) =>
      placeholderOutputs ("Unexpected error: " ++ e)
    | .ok [] =>
      placeholderOutputs "No commit data returned (empty result)."
    | .ok (r :: rs) =>
      let table := r :: rs
      let logins := table.map Record.author_login
      let weekly := weeklySeries (table.map Record.commit_date)
      let counts := value_counts (logins.map fillna_unknown)
      let total := table.length
      { figCommits := .line weekly (owner.getD "") (repo.getD "")
        figContrib := .bar (contributors logins)
        totalCommits := toString total
        uniqueAuthors := toString (pdNunique (logins.map fillna_unknown))
        dateRange :=
          toString ((rs.map Record.commit_date).foldl Nat.min r.commit_date)
          ++ " → " ++
          toString ((rs.map Record.commit_date).foldl Nat.max r.commit_date)
        topShare :=
          match counts with
          | [] => placeholder
          | (k, c) :: _ =>
            jsonDisplay k ++ ": " ++ fmtShare c total ++ "% of commits"
        errorMsg := "" }

/-! ## Statement vocabulary and concrete demo inputs -/

/-- Total field access used to state what `rowOfItem` produces: `Json.null`
for a missing key or a non-object receiver. -/
def safeGet (v : Json) (key : String) : Json :=
  match v with
  | .obj fields => (fields.lookup key).getD .null
  | _ => .null

/-- A JSON value that is `null` or an object. -/
def IsNullOrObj (v : Json) : Prop := v = Json.null ∨ ∃ fields, v = Json.obj fields

/-- Shape hypothesis of the safety claim about `rowOfItem`: the item is a
JSON object, its `commit` field (when present) is null or an object, the
`author` field of that commit object (when present) is null or an object,
and the top-level `author` field (when present) is null or an object.  All
leaf fields (`sha`, `date`, `name`, `login`, `message`) may be absent or
null (or anything else). -/
def WellShapedItem (item : Json) : Prop :=
  ∃ fs, item = Json.obj fs
    ∧ (∀ c, fs.lookup "commit" = some c → IsNullOrObj c
        ∧ ∀ gs, c = Json.obj gs →
            ∀ a, gs.lookup "author" = some a → IsNullOrObj a)
    ∧ (∀ a, fs.lookup "author" = some a → IsNullOrObj a)

/-- A concrete timestamp parser used in witnesses: accepts JSON numbers
with a nonnegative value as day numbers, rejects everything else. -/
def demoParse : Json → Option Nat
  | .num n => if 0 ≤ n then some n.toNat else none
  | _ => none

/-- A commit item whose `commit.author.date` is the given JSON value. -/
def demoItem (dj : Json) : Json :=
  Json.obj (.cons "commit"
    (Json.obj (.cons "author" (Json.obj (.cons "date" dj .nil)) .nil)) .nil)

/-- Demo response array: five items with parseable (numeric) dates and two
with null dates. -/
def demoItems : List Json :=
  [demoItem (Json.num 0), demoItem (Json.num 3), demoItem Json.null,
   demoItem (Json.num 9), demoItem (Json.num 4), demoItem Json.null,
   demoItem (Json.num 17)]

/-- The raw records `demoItems` extracts to. -/
def demoRecs : List RawRecord :=
  [⟨Json.null, Json.num 0, Json.null, Json.null, Json.null⟩,
   ⟨Json.null, Json.num 3, Json.null, Json.null, Json.null⟩,
   ⟨Json.null, Json.null, Json.null, Json.null, Json.null⟩,
   ⟨Json.null, Json.num 9, Json.null, Json.null, Json.null⟩,
   ⟨Json.null, Json.num 4, Json.null, Json.null, Json.null⟩,
   ⟨Json.null, Json.null, Json.null, Json.null, Json.null⟩,
   ⟨Json.null, Json.num 17, Json.null, Json.null, Json.null⟩]

/-! ## Arithmetic facts about the weekly bins -/

theorem weekEnd_mod (d : Nat) : weekEnd d % 7 = 3 := by
  unfold weekEnd; omega

theorem le_weekEnd (d : Nat) : d ≤ weekEnd d := by
  unfold weekEnd; omega

theorem weekEnd_le_of (d m : Nat) (h1 : d ≤ m) (h2 : m % 7 = 3) :
    weekEnd d ≤ m := by
  unfold weekEnd; omega

theorem weekEnd_mono {d e : Nat} (h : d ≤ e) : weekEnd d ≤ weekEnd e :=
  weekEnd_le_of d (weekEnd e) (le_trans h (le_weekEnd e)) (weekEnd_mod e)

theorem foldl_min_le_init (l : List Nat) (a : Nat) : l.foldl Nat.min a ≤ a := by
  induction l generalizing a with
  | nil => simp
  | cons b l ih =>
    have h1 := ih (Nat.min a b)
    have h2 : Nat.min a b ≤ a := Nat.min_le_left a b
    simp only [List.foldl_cons]
    omega

theorem foldl_min_le_mem (l : List Nat) (a x : Nat) (hx : x ∈ l) :
    l.foldl Nat.min a ≤ x := by
  induction l generalizing a with
  | nil => cases hx
  | cons b l ih =>
    simp only [List.foldl_cons]
    rcases List.mem_cons.mp hx with rfl | hx'
    · have h1 := foldl_min_le_init l (Nat.min a x)
      have h2 : Nat.min a x ≤ x := Nat.min_le_right a x
      omega
    · exact ih (Nat.min a b) hx'

theorem le_foldl_max_init (l : List Nat) (a : Nat) : a ≤ l.foldl Nat.max a := by
  induction l generalizing a with
  | nil => simp
  | cons b l ih =>
    have h1 := ih (Nat.max a b)
    have h2 : a ≤ Nat.max a b := Nat.le_max_left a b
    simp only [List.foldl_cons]
    omega

theorem le_foldl_max_mem (l : List Nat) (a x : Nat) (hx : x ∈ l) :
    x ≤ l.foldl Nat.max a := by
  induction l generalizing a with
  | nil => cases hx
  | cons b l ih =>
    simp only [List.foldl_cons]
    rcases List.mem_cons.mp hx with rfl | hx'
    · have h1 := le_foldl_max_init l (Nat.max a x)
      have h2 : x ≤ Nat.max a x := Nat.le_max_right a x
      omega
    · exact ih (Nat.max a b) hx'

theorem sum_indicator_range_of_lt {n k : Nat} (hk : k < n) :
    ((List.range n).map (fun i => if k = i then 1 else 0)).sum = 1 := by
  induction n with
  | zero => omega
  | succ n ih =>
    rw [List.range_succ, List.map_append, List.sum_append]
    rcases Nat.lt_or_ge k n with h | h
    · have hkn : k ≠ n := Nat.ne_of_lt h
      simp [ih h, hkn]
    · have hkn : k = n := by omega
      subst hkn
      have hzero : ((List.range k).map (fun i => if k = i then 1 else 0)).sum = 0 := by
        apply List.sum_eq_zero
        intro x hx
        rcases List.mem_map.mp hx with ⟨i, hi, rfl⟩
        have : i < k := List.mem_range.mp hi
        simp only [ite_eq_right_iff]
        omega
      simp [hzero]

theorem sum_range_countP {α : Type} (g : α → Nat) (L : List α) (n : Nat)
    (h : ∀ x ∈ L, g x < n) :
    ((List.range n).map (fun i => L.countP (fun x => g x == i))).sum = L.length := by
  induction L with
  | nil => simp
  | cons a L ih =>
    have ha : g a < n := h a (by simp)
    have hL : ∀ x ∈ L, g x < n := fun x hx => h x (by simp [hx])
    simp only [List.countP_cons, beq_iff_eq]
    rw [List.sum_map_add, ih hL]
    have : ((List.range n).map (fun i => if g a = i then 1 else 0)).sum = 1 :=
      sum_indicator_range_of_lt ha
    simp only [List.length_cons]
    omega

theorem mem_cons_min_le {d : Nat} {ds : List Nat} :
    ∀ x ∈ d :: ds, ds.foldl Nat.min d ≤ x := by
  intro x hx
  rcases List.mem_cons.mp hx with rfl | hx'
  · exact foldl_min_le_init ds x
  · exact foldl_min_le_mem ds d x hx'

theorem mem_cons_le_max {d : Nat} {ds : List Nat} :
    ∀ x ∈ d :: ds, x ≤ ds.foldl Nat.max d := by
  intro x hx
  rcases List.mem_cons.mp hx with rfl | hx'
  · exact le_foldl_max_init ds x
  · exact le_foldl_max_mem ds d x hx'

theorem sum_weekly_counts (dates : List Nat) (hne : dates ≠ []) :
    ((weeklySeries dates).map Prod.snd).sum = dates.length := by
  obtain ⟨d, ds, rfl⟩ : ∃ d ds, dates = d :: ds := by
    cases dates with
    | nil => exact absurd rfl hne
    | cons d ds => exact ⟨d, ds, rfl⟩
  have hseries : weeklySeries (d :: ds) =
      (List.range ((weekEnd (ds.foldl Nat.max d) - weekEnd (ds.foldl Nat.min d)) / 7 + 1)).map
        (fun i => (weekEnd (ds.foldl Nat.min d) + 7 * i,
          (d :: ds).countP (fun x =>
            weekEnd x == weekEnd (ds.foldl Nat.min d) + 7 * i))) := rfl
  rw [hseries, List.map_map]
  have hcomp : (Prod.snd ∘ fun i : Nat =>
      (weekEnd (ds.foldl Nat.min d) + 7 * i,
        (d :: ds).countP (fun x =>
          weekEnd x == weekEnd (ds.foldl Nat.min d) + 7 * i)))
      = fun i => (d :: ds).countP (fun x =>
          weekEnd x == weekEnd (ds.foldl Nat.min d) + 7 * i) := rfl
  rw [hcomp]
  have hcong : (fun i => (d :: ds).countP (fun x =>
        weekEnd x == weekEnd (ds.foldl Nat.min d) + 7 * i))
      = fun i => (d :: ds).countP (fun x =>
        (weekEnd x - weekEnd (ds.foldl Nat.min d)) / 7 == i) := by
    funext i
    apply List.countP_congr
    intro x hx
    have h1 : weekEnd (ds.foldl Nat.min d) ≤ weekEnd x :=
      weekEnd_mono (mem_cons_min_le x hx)
    have h2 : weekEnd x % 7 = 3 := weekEnd_mod x
    have h3 : weekEnd (ds.foldl Nat.min d) % 7 = 3 := weekEnd_mod _
    simp only [beq_iff_eq]
    omega
  rw [hcong]
  apply sum_range_countP (fun x => (weekEnd x - weekEnd (ds.foldl Nat.min d)) / 7)
  intro x hx
  have h1 : weekEnd x ≤ weekEnd (ds.foldl Nat.max d) :=
    weekEnd_mono (mem_cons_le_max x hx)
  have h2 : weekEnd (ds.foldl Nat.min d) ≤ weekEnd x :=
    weekEnd_mono (mem_cons_min_le x hx)
  omega

/-- C1: For every non-empty CommitTable with `N` rows, the counts of the
`WeeklySeries` produced by the weekly resampling of `update_dashboard` sum
to `N`. -/
theorem weeklySeries_counts_sum_eq_rows (table : List Record) (h : table ≠ []) :
    ((weeklySeries (table.map Record.commit_date)).map Prod.snd).sum
      = table.length := by
  have hne : table.map Record.commit_date ≠ [] := by
    cases table with
    | nil => exact absurd rfl h
    | cons r rs => simp
  rw [sum_weekly_counts _ hne, List.length_map]

/-- Witness for C1 at a concrete two-row table whose commits are three
weeks apart. -/
theorem weeklySeries_counts_sum_eq_rows_witness :
    (([⟨Json.null, 0, Json.null, Json.null, Json.null⟩,
       ⟨Json.null, 17, Json.null, Json.null, Json.null⟩] : List Record) ≠ [])
    ∧ ((weeklySeries (([⟨Json.null, 0, Json.null, Json.null, Json.null⟩,
         ⟨Json.null, 17, Json.null, Json.null, Json.null⟩] : List Record).map
           Record.commit_date)).map Prod.snd).sum = 2 :=
  ⟨by decide, weeklySeries_counts_sum_eq_rows _ (by decide)⟩

/-! ## Generic facts about the stable insertion sort -/

theorem mem_insertSorted {before : α → α → Bool} {x z : α} {l : List α} :
    z ∈ insertSorted before x l ↔ z = x ∨ z ∈ l := by
  induction l with
  | nil => simp [insertSorted]
  | cons y ys ih =>
    simp only [insertSorted]
    split
    · simp [List.mem_cons]
    · simp only [List.mem_cons, ih]
      tauto

theorem insertSorted_perm (before : α → α → Bool) (x : α) (l : List α) :
    (insertSorted before x l).Perm (x :: l) := by
  induction l with
  | nil => exact List.Perm.refl _
  | cons y ys ih =>
    simp only [insertSorted]
    split
    · exact List.Perm.refl _
    · exact (ih.cons y).trans (List.Perm.swap x y ys)

theorem sortBy_perm (before : α → α → Bool) (l : List α) :
    (sortBy before l).Perm l := by
  induction l with
  | nil => exact List.Perm.refl _
  | cons x xs ih =>
    exact (insertSorted_perm before x (sortBy before xs)).trans (ih.cons x)

theorem pairwise_insertSorted {R : α → α → Prop} {before : α → α → Bool}
    (hT : ∀ x y, before x y = true → R x y)
    (hF : ∀ x y, before x y = false → R y x)
    (htr : ∀ a b c, R a b → R b c → R a c)
    (x : α) (l : List α) (hl : l.Pairwise R) :
    (insertSorted before x l).Pairwise R := by
  induction l with
  | nil => simp [insertSorted]
  | cons y ys ih =>
    rcases List.pairwise_cons.mp hl with ⟨hy, hys⟩
    simp only [insertSorted]
    split
    case isTrue hb =>
      apply List.pairwise_cons.mpr
      refine ⟨?_, hl⟩
      intro z hz
      rcases List.mem_cons.mp hz with rfl | hz'
      · exact hT x z hb
      · exact htr x y z (hT x y hb) (hy z hz')
    case isFalse hb =>
      apply List.pairwise_cons.mpr
      refine ⟨?_, ih hys⟩
      intro z hz
      rcases mem_insertSorted.mp hz with rfl | hz'
      · exact hF z y (by simpa using hb)
      · exact hy z hz'

theorem pairwise_sortBy {R : α → α → Prop} {before : α → α → Bool}
    (hT : ∀ x y, before x y = true → R x y)
    (hF : ∀ x y, before x y = false → R y x)
    (htr : ∀ a b c, R a b → R b c → R a c)
    (l : List α) :
    (sortBy before l).Pairwise R := by
  induction l with
  | nil => simp [sortBy]
  | cons x xs ih => exact pairwise_insertSorted hT hF htr x _ ih

/-! ## Facts about `firstOccs` and `filterMap` -/

theorem mem_of_mem_firstOccsAux (l : List Json) :
    ∀ (seen : List Json), ∀ x ∈ firstOccsAux seen l, x ∈ l := by
  induction l with
  | nil =>
    intro seen x hx
    rw [firstOccsAux] at hx
    cases hx
  | cons y ys ih =>
    intro seen x hx
    rw [firstOccsAux] at hx
    split at hx
    · exact List.mem_cons_of_mem _ (ih seen x hx)
    · rcases List.mem_cons.mp hx with rfl | hx'
      · exact List.mem_cons_self _ _
      · exact List.mem_cons_of_mem _ (ih (y :: seen) x hx')

theorem mem_of_mem_firstOccs (l : List Json) : ∀ x ∈ firstOccs l, x ∈ l :=
  mem_of_mem_firstOccsAux l []

theorem length_filterMap_eq_countP (f : α → Option β) (l : List α) :
    (l.filterMap f).length = l.countP (fun a => (f a).isSome) := by
  induction l with
  | nil => rfl
  | cons a l ih =>
    rw [List.filterMap_cons, List.countP_cons]
    cases hfa : f a <;> simp [hfa, ih]

/-! ## C2: gap weeks are materialized; ordering of the weekly series -/

theorem weeklySeries_cons (d : Nat) (ds : List Nat) :
    weeklySeries (d :: ds) =
      (List.range
          ((weekEnd (ds.foldl Nat.max d) - weekEnd (ds.foldl Nat.min d)) / 7 + 1)).map
        (fun i => (weekEnd (ds.foldl Nat.min d) + 7 * i,
          (d :: ds).countP (fun x =>
            weekEnd x == weekEnd (ds.foldl Nat.min d) + 7 * i))) := rfl

theorem weekEnd_bucket_index {d : Nat} {ds : List Nat} {x : Nat}
    (hx : x ∈ d :: ds) :
    ∃ i < (weekEnd (ds.foldl Nat.max d) - weekEnd (ds.foldl Nat.min d)) / 7 + 1,
      weekEnd (ds.foldl Nat.min d) + 7 * i = weekEnd x := by
  have h1 := weekEnd_mono (mem_cons_min_le x hx)
  have h2 := weekEnd_mono (mem_cons_le_max x hx)
  have h3 := weekEnd_mod x
  have h4 := weekEnd_mod (ds.foldl Nat.min d)
  exact ⟨(weekEnd x - weekEnd (ds.foldl Nat.min d)) / 7, by omega, by omega⟩

/-- C2 is refuted: for the two-row table with commits on days 0 and 17
(three distinct weeks apart), the weekly series materializes the commitless
middle week as a row with count 0 — `resample("W")` gap-fills. -/
theorem weeklySeries_materializes_gap_week :
    weeklySeries [0, 17] = [(3, 1), (10, 0), (17, 1)]
    ∧ ¬ (∀ p ∈ weeklySeries [0, 17], 1 ≤ p.2) := by
  constructor
  · decide
  · decide

/-- C2 (amended): for every non-empty CommitTable the rows of the weekly
series are strictly ascending by week, and every week containing at least
one commit appears as a row with count ≥ 1; however, weeks with zero
commits lying between the first and last commit weeks ARE materialized as
rows (with count 0), contrary to the original claim. -/
theorem weeklySeries_ascending_and_commit_weeks_present
    (table : List Record) (h : table ≠ []) :
    List.Pairwise (fun p q : Nat × Nat => p.1 < q.1)
      (weeklySeries (table.map Record.commit_date))
    ∧ ∀ r ∈ table, ∃ p ∈ weeklySeries (table.map Record.commit_date),
        p.1 = weekEnd r.commit_date ∧ 1 ≤ p.2 := by
  obtain ⟨d, ds, hd⟩ : ∃ d ds, table.map Record.commit_date = d :: ds := by
    cases table with
    | nil => exact absurd rfl h
    | cons r rs => exact ⟨r.commit_date, rs.map Record.commit_date, rfl⟩
  constructor
  · rw [hd, weeklySeries_cons]
    apply List.pairwise_map.mpr
    apply (List.pairwise_lt_range _).imp
    intro a b hab
    simpa using by omega
  · intro r hr
    have hx : r.commit_date ∈ d :: ds := by
      rw [← hd]
      exact List.mem_map_of_mem Record.commit_date hr
    obtain ⟨i, hi, hieq⟩ := weekEnd_bucket_index hx
    refine ⟨(weekEnd (ds.foldl Nat.min d) + 7 * i,
      (d :: ds).countP (fun x =>
        weekEnd x == weekEnd (ds.foldl Nat.min d) + 7 * i)), ?_, hieq, ?_⟩
    · rw [hd, weeklySeries_cons]
      exact List.mem_map_of_mem _ (List.mem_range.mpr hi)
    · apply List.countP_pos_iff.mpr
      exact ⟨r.commit_date, hx, by simp [hieq.symm]⟩

/-- Witness for the amended C2 at a concrete two-row table. -/
theorem weeklySeries_ascending_witness :
    List.Pairwise (fun p q : Nat × Nat => p.1 < q.1)
      (weeklySeries (([⟨Json.null, 0, Json.null, Json.null, Json.null⟩,
        ⟨Json.null, 17, Json.null, Json.null, Json.null⟩] : List Record).map
          Record.commit_date))
    ∧ ∀ r ∈ ([⟨Json.null, 0, Json.null, Json.null, Json.null⟩,
        ⟨Json.null, 17, Json.null, Json.null, Json.null⟩] : List Record),
        ∃ p ∈ weeklySeries
          (([⟨Json.null, 0, Json.null, Json.null, Json.null⟩,
            ⟨Json.null, 17, Json.null, Json.null, Json.null⟩] : List Record).map
              Record.commit_date),
          p.1 = weekEnd r.commit_date ∧ 1 ≤ p.2 :=
  weeklySeries_ascending_and_commit_weeks_present _ (by decide)

/-! ## C4/C5: the contributor ranking -/

/-- C4 is refuted: for the 3-row table with logins `[null, null, "alice"]`
the ranking produced by `value_counts().head(10)` is NOT
`[("alice",1), ("unknown",2)]` — `value_counts` sorts descending by
count. -/
theorem contributor_ranking_not_ascending :
    contributors [Json.null, Json.null, Json.str "alice"]
      ≠ [(Json.str "alice", 1), (Json.str "unknown", 2)] := by decide

/-- C4 (amended): for the 3-row table with logins `[null, null, "alice"]`
the contributor ranking equals `[("unknown",2), ("alice",1)]` — the same
pairs, but ordered descending by count. -/
theorem contributor_ranking_unknown_first :
    contributors [Json.null, Json.null, Json.str "alice"]
      = [(Json.str "unknown", 2), (Json.str "alice", 1)] := by decide

theorem fillna_unknown_ne_null (v : Json) : fillna_unknown v ≠ Json.null := by
  cases v <;> simp [fillna_unknown]

/-- C5: for every non-empty CommitTable the contributor ranking is sorted
descending by count, has at most 10 rows, has at most as many rows as there
are distinct normalized author handles, and contains no null key (missing
handles having been normalized to `"unknown"` before counting). -/
theorem contributor_ranking_sorted_bounded (logins : List Json)
    (h : logins ≠ []) :
    List.Pairwise (fun p q : Json × Nat => q.2 ≤ p.2) (contributors logins)
    ∧ (contributors logins).length ≤ 10
    ∧ (contributors logins).length ≤ pdNunique (logins.map fillna_unknown)
    ∧ ∀ p ∈ contributors logins, p.1 ≠ Json.null := by
  have hsorted : List.Pairwise (fun p q : Json × Nat => q.2 ≤ p.2)
      (value_counts (logins.map fillna_unknown)) := by
    apply pairwise_sortBy
    · intro x y hb
      have : y.2 < x.2 := by simpa [countBefore] using hb
      omega
    · intro x y hb
      have : ¬ (y.2 < x.2) := by simpa [countBefore] using hb
      omega
    · intro a b c h1 h2
      omega
  have hmem : ∀ p ∈ contributors logins,
      p ∈ value_counts (logins.map fillna_unknown) :=
    fun p hp => List.mem_of_mem_take hp
  refine ⟨?_, ?_, ?_, ?_⟩
  · exact hsorted.sublist (List.take_sublist 10 _)
  · exact List.length_take_le 10 _
  · have h1 : (contributors logins).length
        ≤ (value_counts (logins.map fillna_unknown)).length :=
      (List.take_sublist 10 _).length_le
    have h2 : (value_counts (logins.map fillna_unknown)).length
        = pdNunique (logins.map fillna_unknown) := by
      unfold value_counts pdNunique
      rw [(sortBy_perm countBefore _).length_eq, List.length_map]
    omega
  · intro p hp
    have hpv := hmem p hp
    have hpm : p ∈ (firstOccs (logins.map fillna_unknown)).map
        (fun k => (k, (logins.map fillna_unknown).countP (fun v => v == k))) :=
      (sortBy_perm countBefore
        ((firstOccs (logins.map fillna_unknown)).map
          (fun k => (k, (logins.map fillna_unknown).countP
            (fun v => v == k))))).mem_iff.mp hpv
    rcases List.mem_map.mp hpm with ⟨k, hk, hkp⟩
    have hkin : k ∈ logins.map fillna_unknown :=
      mem_of_mem_firstOccs _ k hk
    rcases List.mem_map.mp hkin with ⟨v, _, hv⟩
    have : p.1 = k := by rw [← hkp]
    rw [this, ← hv]
    exact fillna_unknown_ne_null v

/-- Witness for C5 at the 3-row login column `[null, null, "alice"]`. -/
theorem contributor_ranking_sorted_bounded_witness :
    List.Pairwise (fun p q : Json × Nat => q.2 ≤ p.2)
      (contributors [Json.null, Json.null, Json.str "alice"])
    ∧ (contributors [Json.null, Json.null, Json.str "alice"]).length ≤ 10
    ∧ (contributors [Json.null, Json.null, Json.str "alice"]).length
        ≤ pdNunique ([Json.null, Json.null, Json.str "alice"].map fillna_unknown)
    ∧ ∀ p ∈ contributors [Json.null, Json.null, Json.str "alice"],
        p.1 ≠ Json.null :=
  contributor_ranking_sorted_bounded _ (by decide)

/-! ## C6: rows with unparseable timestamps are dropped, nothing else -/

theorem coerceRecord_isSome (parse : Json → Option Nat) (r : RawRecord) :
    (coerceRecord parse r).isSome = (parse r.commit_date).isSome := by
  unfold coerceRecord
  cases parse r.commit_date <;> rfl

/-- C6: for every response body whose items all extract cleanly, the fetch
succeeds (rows with unparseable timestamps are not an error for the whole
call), the resulting table is a permutation of the date-coerced rows whose
timestamp parses, and the table's row count is exactly the number of rows
with a parseable timestamp. -/
theorem fetcher_drops_unparseable_rows (parse : Json → Option Nat)
    (items : List Json) (recs : List RawRecord) (s : Nat)
    (hs : ¬ (400 ≤ s ∧ s < 600))
    (hrows : items.mapM rowOfItem = Except.ok recs) :
    fetch_commits parse ⟨s, some items⟩
      = .ok (sortBy dateBefore (recs.filterMap (coerceRecord parse)))
    ∧ (sortBy dateBefore (recs.filterMap (coerceRecord parse))).Perm
        (recs.filterMap (coerceRecord parse))
    ∧ (sortBy dateBefore (recs.filterMap (coerceRecord parse))).length
        = recs.countP (fun r => (parse r.commit_date).isSome) := by
  refine ⟨?_, sortBy_perm dateBefore _, ?_⟩
  · unfold fetch_commits
    simp only [hs, if_false, hrows]
    cases hempty : recs.isEmpty
    · simp [hempty]
    · have : recs = [] := List.isEmpty_iff.mp hempty
      subst this
      simp [sortBy]
  · rw [(sortBy_perm dateBefore _).length_eq, length_filterMap_eq_countP]
    apply List.countP_congr
    intro r _
    rw [coerceRecord_isSome]

/-- Witness for C6: a 200 response with five parseable-date rows and two
null-date rows yields a table of exactly 5 rows. -/
theorem fetcher_drops_unparseable_rows_witness :
    (fetch_commits demoParse ⟨200, some demoItems⟩
      = .ok (sortBy dateBefore (demoRecs.filterMap (coerceRecord demoParse)))
    ∧ (sortBy dateBefore (demoRecs.filterMap (coerceRecord demoParse))).Perm
        (demoRecs.filterMap (coerceRecord demoParse))
    ∧ (sortBy dateBefore (demoRecs.filterMap (coerceRecord demoParse))).length
        = demoRecs.countP (fun r => (demoParse r.commit_date).isSome))
    ∧ demoRecs.countP (fun r => (demoParse r.commit_date).isSome) = 5 :=
  ⟨fetcher_drops_unparseable_rows demoParse demoItems demoRecs 200
    (by decide) (by rfl), by decide⟩

/-! ## C3/C8: HTTP status handling and the empty-result path -/

/-- C3 is refuted: a response with status 304 — not in the 2xx range — does
not make the fetch fail with an ApiError: `raise_for_status` only raises
for 400–599, so the body is parsed and the call returns successfully. -/
theorem non2xx_status_304_does_not_fail :
    fetch_commits (fun _ => none) ⟨304, some []⟩ = .ok []
    ∧ fetch_commits (fun _ => none) ⟨304, some []⟩
        ≠ .error (FetchErr.http (some 304)) := by
  constructor
  · rfl
  · intro hcontra
    cases hcontra

/-- C3 (amended): for every response whose status is in the 4xx/5xx range
(400–599, the statuses `raise_for_status` raises for — not every non-2xx
status) the fetch fails with an `HTTPError` carrying that numeric status,
and `update_dashboard` surfaces the message naming the status and
referencing repository existence/visibility; when the exception carries no
response, the status is rendered as `"unknown"`. -/
theorem api_error_status_message (parse : Json → Option Nat)
    (body : Option (List Json)) (s : Nat) (owner repo : Option String)
    (h4 : 400 ≤ s) (h6 : s < 600) (ho : pyNot owner = false)
    (hr : pyNot repo = false) :
    fetch_commits parse ⟨s, body⟩ = .error (.http (some s))
    ∧ update_dashboard parse ⟨s, body⟩ owner repo
        = placeholderOutputs ("GitHub API error (status " ++ toString s ++
            "). Check that the repository exists and is public.")
    ∧ apiStatusStr none = "unknown" := by
  have hfetch : fetch_commits parse ⟨s, body⟩ = .error (.http (some s)) := by
    unfold fetch_commits
    rw [if_pos ⟨h4, h6⟩]
  refine ⟨hfetch, ?_, rfl⟩
  unfold update_dashboard
  rw [ho, hr]
  simp only [Bool.or_self, Bool.false_eq_true, if_false, hfetch]
  rfl

/-- Witness for the amended C3 at a concrete 404 response. -/
theorem api_error_status_message_witness :
    fetch_commits demoParse ⟨404, none⟩ = .error (.http (some 404))
    ∧ update_dashboard demoParse ⟨404, none⟩ (some "pandas-dev") (some "pandas")
        = placeholderOutputs ("GitHub API error (status " ++ toString 404 ++
            "). Check that the repository exists and is public.")
    ∧ apiStatusStr none = "unknown" :=
  api_error_status_message demoParse none 404 (some "pandas-dev") (some "pandas")
    (by decide) (by decide) (by decide) (by decide)

/-- C8: a 2xx response whose body is the empty JSON array `[]` is not an
exception and not a fetch failure — `fetch_commits` returns the empty
table — and `update_dashboard` takes the informational empty-result path
with placeholder outputs. -/
theorem empty_result_informational (parse : Json → Option Nat) (s : Nat)
    (owner repo : Option String) (h2 : 200 ≤ s) (h3 : s < 300)
    (ho : pyNot owner = false) (hr : pyNot repo = false) :
    fetch_commits parse ⟨s, some []⟩ = .ok []
    ∧ update_dashboard parse ⟨s, some []⟩ owner repo
        = placeholderOutputs "No commit data returned (empty result)." := by
  have hcond : ¬ (400 ≤ (⟨s, some []⟩ : HttpResponse).status
      ∧ (⟨s, some []⟩ : HttpResponse).status < 600) := by
    show ¬ (400 ≤ s ∧ s < 600)
    omega
  have hfetch : fetch_commits parse ⟨s, some []⟩ = .ok [] := by
    unfold fetch_commits
    rw [if_neg hcond]
    rfl
  refine ⟨hfetch, ?_⟩
  unfold update_dashboard
  rw [ho, hr]
  simp only [Bool.or_self, Bool.false_eq_true, if_false, hfetch]

/-- Witness for C8 at a concrete 200 response with body `[]`. -/
theorem empty_result_informational_witness :
    fetch_commits demoParse ⟨200, some []⟩ = .ok []
    ∧ update_dashboard demoParse ⟨200, some []⟩
        (some "pandas-dev") (some "pandas")
        = placeholderOutputs "No commit data returned (empty result)." :=
  empty_result_informational demoParse 200 (some "pandas-dev") (some "pandas")
    (by decide) (by decide) (by decide) (by decide)

/-! ## C7: error outcomes reset every output -/

theorem update_dashboard_branches (parse : Json → Option Nat)
    (resp : HttpResponse) (owner repo : Option String) :
    (∃ msg, update_dashboard parse resp owner repo = placeholderOutputs msg)
    ∨ (update_dashboard parse resp owner repo).errorMsg = "" := by
  unfold update_dashboard
  split
  · exact .inl ⟨_, rfl⟩
  · split
    · exact .inl ⟨_, rfl⟩
    · exact .inl ⟨_, rfl⟩
    · exact .inl ⟨_, rfl⟩
    · exact .inr rfl

/-- C7: whenever a request cycle ends with a non-empty message (validation
error, API error, unexpected error, or empty result), the whole 7-tuple
equals the placeholder outputs for that message: both figures are the
`"No data"` scatter and all four metrics are `"—"` — nothing is retained
from any previous cycle. -/
theorem error_outputs_are_placeholders (parse : Json → Option Nat)
    (resp : HttpResponse) (owner repo : Option String)
    (h : (update_dashboard parse resp owner repo).errorMsg ≠ "") :
    update_dashboard parse resp owner repo
      = placeholderOutputs (update_dashboard parse resp owner repo).errorMsg := by
  rcases update_dashboard_branches parse resp owner repo with ⟨msg, hmsg⟩ | hempty
  · rw [hmsg]
    rfl
  · exact absurd hempty h

/-- Witness for C7 at a concrete failing cycle (a 404 response). -/
theorem error_outputs_are_placeholders_witness :
    update_dashboard demoParse ⟨404, none⟩ (some "pandas-dev") (some "pandas")
      = placeholderOutputs
          (update_dashboard demoParse ⟨404, none⟩
            (some "pandas-dev") (some "pandas")).errorMsg :=
  error_outputs_are_placeholders demoParse ⟨404, none⟩
    (some "pandas-dev") (some "pandas") (by decide)

/-! ## C9: row extraction is total on null/absent fields -/

theorem pyOr_obj (gs : JsonFields) :
    pyOr (Json.obj gs) (Json.obj .nil) = Json.obj gs := by
  cases gs <;> rfl

theorem pyOr_null : pyOr Json.null (Json.obj .nil) = Json.obj .nil := rfl

/-- C9: for every well-shaped commit item (its `commit`, `commit.author`
and `author` fields each absent, null, or an object; all leaf fields
arbitrary — in particular absent or null), the extraction loop body never
raises: it returns the record whose every field is the total lookup of the
corresponding path, degrading to `null` wherever a field is absent or an
intermediate object is missing. -/
theorem row_extraction_total_on_null_absent (item : Json)
    (h : WellShapedItem item) :
    rowOfItem item = .ok
      ⟨safeGet item "sha",
       safeGet (safeGet (safeGet item "commit") "author") "date",
       safeGet (safeGet (safeGet item "commit") "author") "name",
       safeGet (safeGet item "author") "login",
       safeGet (safeGet item "commit") "message"⟩ := by
  obtain ⟨fs, rfl, hcommit, hauthor⟩ := h
  have hcs : fs.lookup "commit" = none ∨ fs.lookup "commit" = some Json.null
      ∨ ∃ gs, fs.lookup "commit" = some (Json.obj gs)
        ∧ (gs.lookup "author" = none ∨ gs.lookup "author" = some Json.null
           ∨ ∃ hs, gs.lookup "author" = some (Json.obj hs)) := by
    rcases hc : fs.lookup "commit" with _ | c
    · exact .inl rfl
    · rcases (hcommit c hc).1 with rfl | ⟨gs, rfl⟩
      · exact .inr (.inl rfl)
      · refine .inr (.inr ⟨gs, rfl, ?_⟩)
        rcases hg : gs.lookup "author" with _ | a2
        · exact .inl rfl
        · rcases (hcommit _ hc).2 gs rfl a2 hg with rfl | ⟨hs, rfl⟩
          · exact .inr (.inl rfl)
          · exact .inr (.inr ⟨hs, rfl⟩)
  have has : fs.lookup "author" = none ∨ fs.lookup "author" = some Json.null
      ∨ ∃ ks, fs.lookup "author" = some (Json.obj ks) := by
    rcases ha : fs.lookup "author" with _ | a
    · exact .inl rfl
    · rcases hauthor a ha with rfl | ⟨ks, rfl⟩
      · exact .inr (.inl rfl)
      · exact .inr (.inr ⟨ks, rfl⟩)
  clear hcommit hauthor
  rcases hcs with hc | hc | ⟨gs, hc, hg | hg | ⟨hs, hg⟩⟩ <;>
    rcases has with ha | ha | ⟨ks, ha⟩ <;>
      simp [rowOfItem, pyGet, pyGetD, pyOr_null, pyOr_obj, safeGet,
        JsonFields.lookup, Bind.bind, Except.bind, pure, Except.pure, *]

/-- Witness for C9 at a concrete item whose `commit` and `author` fields
are both explicitly null (and whose leaf fields are all absent). -/
theorem row_extraction_total_witness :
    rowOfItem (Json.obj (.cons "commit" Json.null (.cons "author" Json.null .nil)))
      = .ok
        ⟨safeGet (Json.obj (.cons "commit" Json.null
            (.cons "author" Json.null .nil))) "sha",
         safeGet (safeGet (safeGet (Json.obj (.cons "commit" Json.null
            (.cons "author" Json.null .nil))) "commit") "author") "date",
         safeGet (safeGet (safeGet (Json.obj (.cons "commit" Json.null
            (.cons "author" Json.null .nil))) "commit") "author") "name",
         safeGet (safeGet (Json.obj (.cons "commit" Json.null
            (.cons "author" Json.null .nil))) "author") "login",
         safeGet (safeGet (Json.obj (.cons "commit" Json.null
            (.cons "author" Json.null .nil))) "commit") "message"⟩ := by
  refine row_extraction_total_on_null_absent _ ⟨_, rfl, ?_, ?_⟩
  · intro c hc
    simp [JsonFields.lookup] at hc
    subst hc
    exact ⟨Or.inl rfl, fun gs hgs => nomatch hgs⟩
  · intro a ha
    simp [JsonFields.lookup] at ha
    subst ha
    exact Or.inl rfl

/-! ## C10: whitespace-only inputs pass the emptiness validation -/

/-- C10: a whitespace-only (non-empty) owner together with any non-empty
repo passes the `if not owner or not repo` check — the validation-error
branch is not taken — and `fetch_commits` is invoked with the stripped
owner, which is the empty string, interpolated into the request URL
(`/repos//{repo}/commits`). -/
theorem whitespace_inputs_pass_validation (w r : String) (hw1 : w ≠ "")
    (hw2 : ∀ c ∈ w.data, c.isWhitespace) (hr : r ≠ "") :
    (pyNot (some w) || pyNot (some r)) = false
    ∧ pyStrip w = ""
    ∧ fetchArgs (some w) (some r) = some ("", pyStrip r)
    ∧ fetchUrl "" (pyStrip r)
        = "https://api.github.com/repos//" ++ pyStrip r ++ "/commits" := by
  have hnot : (pyNot (some w) || pyNot (some r)) = false := by
    simp [pyNot, hw1, hr]
  have hstrip : pyStrip w = "" := by
    unfold pyStrip
    rw [List.dropWhile_eq_nil_iff.mpr hw2]
    rfl
  refine ⟨hnot, hstrip, ?_, rfl⟩
  unfold fetchArgs
  rw [hnot, if_neg (by simp)]
  rw [Option.getD_some, Option.getD_some, hstrip]

/-- Witness for C10 at owner `"   "` and repo `"pandas"`. -/
theorem whitespace_inputs_pass_validation_witness :
    (pyNot (some "   ") || pyNot (some "pandas")) = false
    ∧ pyStrip "   " = ""
    ∧ fetchArgs (some "   ") (some "pandas") = some ("", pyStrip "pandas")
    ∧ fetchUrl "" (pyStrip "pandas")
        = "https://api.github.com/repos//" ++ pyStrip "pandas" ++ "/commits" :=
  whitespace_inputs_pass_validation "   " "pandas" (by decide) (by decide)
    (by decide)
